import Mathlib

/-!
Verification of the rv8 soft MMU (src/emu/riscv-soft-mmu.h) and the
rv-sim image loader (src/app/rv-sim.cc), as a shallow embedding.

Machine integers: the rv64 instantiation is modelled, with `UX`/`addr_t`
as `Nat` reduced `% 2 ^ 64` wherever the C code could overflow.  The
sentinel `illegal_address` is modelled by `Option` (`none` = illegal).
Components of the repository that the MMU uses but whose code is not in
the sources at hand (the `Mem` segment map, the tagged TLB, the PMA table
and the PTE bit layout) are modelled from the specification; each such
definition carries a doc comment saying so.
-/

namespace RV8

/-- Privilege modes (`riscv_mode_U/S/H/M`). -/
inductive Mode
  | U
  | S
  | H
  | M
deriving DecidableEq

/-- The `mstatus.vm` virtual-memory scheme selector
(`riscv_vm_mbare`, `riscv_vm_sv32`, `riscv_vm_sv39`, `riscv_vm_sv48`). -/
inductive VMMode
  | mbare
  | sv32
  | sv39
  | sv48
deriving DecidableEq

/-- Page-table levels of each scheme (`PTM::levels`). -/
def VMMode.levels : VMMode → Nat
  | .mbare => 0
  | .sv32 => 2
  | .sv39 => 3
  | .sv48 => 4

/-- Virtual-page-number bits per level (`PTM::bits`). -/
def VMMode.bits : VMMode → Nat
  | .mbare => 0
  | .sv32 => 10
  | .sv39 => 9
  | .sv48 => 9

/-- Byte size of a page-table entry (`sizeof(pte_type)`). -/
def VMMode.pteSize : VMMode → Nat
  | .mbare => 0
  | .sv32 => 4
  | .sv39 => 8
  | .sv48 => 8

def page_shift : Nat := 12

/-- Modulus of the 64-bit machine words `UX` and `addr_t`. -/
def xlenMod : Nat := 2 ^ 64

/-- All-ones 64-bit word, the value of `~x` complements against. -/
def mask64 : Nat := 2 ^ 64 - 1

/-- Modelled from the spec: `tlb_type::ppn_bits`, the width of the ppn
field of `sptbr` (the TLB type is not among the sources; priv-1.9 gives
the rv64 `sptbr` a 38-bit ppn field, and the spec masks `sptbr` with a
`ppn_mask` to obtain the root page number). -/
def ppn_bits : Nat := 38

def pte_shift_V : Nat := 0
def pte_shift_R : Nat := 1
def pte_shift_W : Nat := 2
def pte_flag_R : Nat := 2
def pte_flag_X : Nat := 8

/-- Modelled from the spec: PTE flag extraction (`pte.val.flags`).  The
PTE types are not among the sources; the spec lists flag bits
V,R,W,X,U,G,A,D in the low bits with the ppn above them, the standard
RISC-V layout with a 10-bit flag field. -/
def pte_flags (v : Nat) : Nat := v &&& (2 ^ 10 - 1)

/-- Modelled from the spec: PTE physical-page-number extraction
(`pte.val.ppn`), the bits above the 10 flag bits. -/
def pte_ppn (v : Nat) : Nat := (v >>> 10) &&& (2 ^ 38 - 1)

/-- Modelled from the spec (§4.1): the `Mem` component.  `mapped pa`
states that `mpa_to_uva pa` is not `illegal_address`; reading through
the returned host pointer yields the guest contents at `pa`, which
`word pa` gives directly (the pa→uva map is injective per segment). -/
structure Mem where
  mapped : Nat → Bool
  word : Nat → Nat

/-- A TLB entry: protection-domain id, root tag, virtual and physical
page numbers and the leaf PTE flags. -/
structure TLBEntry where
  pdid : Nat
  root : Nat
  vpn : Nat
  ppn : Nat
  flags : Nat
deriving DecidableEq

/-- Modelled from the spec (§4.3): the tagged, direct-mapped TLB
(`tagged_tlb_rv64<128>`); slot index is the vpn modulo the capacity. -/
structure TLB where
  slots : Nat → Option TLBEntry

def tlb_size : Nat := 128

/-- Modelled from the spec (§4.3): `lookup(pdid, root, va)` matches only
when the stored pdid, root tag and vpn all equal the query. -/
def TLB.lookup (t : TLB) (pdid root va : Nat) : Option TLBEntry :=
  let vpn := va >>> page_shift
  match t.slots (vpn % tlb_size) with
  | some e => if e.pdid = pdid ∧ e.root = root ∧ e.vpn = vpn then some e else none
  | none => none

/-- Modelled from the spec (§4.3): `insert` unconditionally writes the
indexed slot. -/
def TLB.insert (t : TLB) (pdid root va flags ppn : Nat) : TLB :=
  let vpn := va >>> page_shift
  ⟨fun i => if i = vpn % tlb_size then some ⟨pdid, root, vpn, ppn, flags⟩ else t.slots i⟩

def TLB.empty : TLB := ⟨fun _ => none⟩

def pma_prot_read : Nat := 1
def pma_prot_write : Nat := 2
def pma_prot_execute : Nat := 4

/-- Modelled from the spec (§4.2): a PMA entry `(base, length, attrs)`. -/
structure PMAEntry where
  base : Nat
  len : Nat
  attrs : Nat
deriving DecidableEq

/-- Modelled from the spec (§4.2): lookup returns the first entry whose
range contains the queried physical address. -/
def pma_lookup (t : List PMAEntry) (pa : Nat) : Option PMAEntry :=
  t.find? (fun e => decide (e.base ≤ pa ∧ pa < e.base + e.len))

/-- An entry marks its range read-only when it is readable but not
writable. -/
def PMAEntry.read_only (e : PMAEntry) : Bool :=
  (e.attrs &&& pma_prot_read != 0) && (e.attrs &&& pma_prot_write == 0)

/-- The processor fields the MMU touches (`P &proc`). -/
structure Proc where
  mode : Mode
  mprv : Bool
  vm : VMMode
  pdid : Nat
  sptbr : Nat
  badaddr : Nat

/-- The `mmu` struct: instruction TLB, data TLB, PMA table, memory. -/
structure MMU where
  l1_itlb : TLB
  l1_dtlb : TLB
  pma : List PMAEntry
  mem : Mem

/-- `mmu::misaligned<T>`: `(va & (sizeof(T) - 1)) != 0`. -/
def misaligned (sz va : Nat) : Bool := (va &&& (sz - 1)) != 0

/-- The PTE access-fault test of `mmu::walk_page_table`, verbatim:
`((~flags >> pte_shift_V) | ((~flags >> pte_shift_R) & (flags >> pte_shift_W))) & 1`,
with `~` the 64-bit complement. -/
def pteFaultTest (flags : Nat) : Bool :=
  ((((mask64 ^^^ flags) >>> pte_shift_V) |||
    (((mask64 ^^^ flags) >>> pte_shift_R) &&& (flags >>> pte_shift_W))) &&& 1) != 0

/-- The address of the PTE read at a level of the walk, verbatim from
`mmu::walk_page_table`: `shift = PTM::bits * level + page_shift`,
`vpn = (va >> shift) & ((1 << PTM::bits) - 1)`,
`pte_mpa = ppn + vpn * sizeof(pte_type)` (a `UX`, hence `% 2 ^ 64`). -/
def pte_addr (vm : VMMode) (va level ppn : Nat) : Nat :=
  (ppn + ((va >>> (vm.bits * level + page_shift)) &&& ((1 <<< vm.bits) - 1))
    * vm.pteSize) % xlenMod

/-- Outcome of one level of the page-table walk. -/
inductive StepRes
  | fail
  | leaf (pa flags ppn : Nat)
  | descend (ppn : Nat)
deriving DecidableEq

/-- One iteration of the loop in `mmu::walk_page_table`: read the PTE,
apply the fault test, then the leaf test (`flags & (R | X)`), else step
to the next table. -/
def walk_step (vm : VMMode) (mem : Mem) (va level ppn : Nat) : StepRes :=
  let shift := vm.bits * level + page_shift
  let mpa := pte_addr vm va level ppn
  if mem.mapped mpa = false then .fail
  else
    let pteVal := mem.word mpa
    let flags := pte_flags pteVal
    if pteFaultTest flags then .fail
    else if flags &&& (pte_flag_R ||| pte_flag_X) ≠ 0 then
      .leaf (((pte_ppn pteVal <<< page_shift) + (va &&& ((1 <<< shift) - 1))) % xlenMod)
        flags (pte_ppn pteVal)
    else .descend (pte_ppn pteVal)

/-- The level loop of `mmu::walk_page_table`, from `levels - 1` down to
0; falling past level 0 is a translation fault.  On success it returns
the physical address together with the leaf PTE flags and ppn that the
caller inserts into the TLB. -/
def walk_levels (vm : VMMode) (mem : Mem) (va : Nat) : Nat → Nat → Option (Nat × Nat × Nat)
  | 0, ppn =>
    match walk_step vm mem va 0 ppn with
    | .fail => none
    | .leaf pa flags p => some (pa, flags, p)
    | .descend _ => none
  | level + 1, ppn =>
    match walk_step vm mem va (level + 1) ppn with
    | .fail => none
    | .leaf pa flags p => some (pa, flags, p)
    | .descend p => walk_levels vm mem va level p

/-- `mmu::walk_page_table`: start at `ppn = sptbr & ((1 << ppn_bits) - 1)`
and walk from level `levels - 1`. -/
def walk_page_table (vm : VMMode) (mem : Mem) (sptbr va : Nat) : Option (Nat × Nat × Nat) :=
  walk_levels vm mem va (vm.levels - 1) (sptbr &&& ((1 <<< ppn_bits) - 1))

/-- `mmu::page_translate_addr` together with its TLB-miss slow path
`mmu::page_translate_addr_tlb_miss`: look up
`(pdid, sptbr >> ppn_bits, va)`; on a hit compose the pa from the cached
ppn and the low 12 bits of va (the hit composition
`(ppn << page_shift) | (va & ~page_mask)` follows the spec §4.4.1 step 3,
`page_mask` being defined outside the sources); on a miss walk the page
table and insert the leaf flags and ppn (`pte.val.flags`, `pte.val.ppn`)
into the TLB. -/
def page_translate_addr (vm : VMMode) (mem : Mem) (tlb : TLB) (pdid sptbr va : Nat) :
    Option Nat × TLB :=
  match tlb.lookup pdid (sptbr >>> ppn_bits) va with
  | some e => (some (((e.ppn <<< page_shift) ||| (va &&& (2 ^ page_shift - 1))) % xlenMod), tlb)
  | none =>
    match walk_page_table vm mem sptbr va with
    | none => (none, tlb)
    | some (pa, flags, ppn) =>
      (some pa, tlb.insert pdid (sptbr >>> ppn_bits) va flags ppn)

/-- The paged arm of `mmu::translate_addr`: the template argument
selects `l1_itlb` or `l1_dtlb`. -/
def translate_paged (vm : VMMode) (is_fetch : Bool) (m : MMU) (p : Proc) (va : Nat) :
    Option Nat × MMU :=
  if is_fetch then
    let r := page_translate_addr vm m.mem m.l1_itlb p.pdid p.sptbr va
    (r.1, { m with l1_itlb := r.2 })
  else
    let r := page_translate_addr vm m.mem m.l1_dtlb p.pdid p.sptbr va
    (r.1, { m with l1_dtlb := r.2 })

/-- `mmu::translate_addr`: identity when the mode is M with `mprv`
clear, otherwise dispatch on `mstatus.vm`. -/
def translate_addr (is_fetch : Bool) (m : MMU) (p : Proc) (va : Nat) : Option Nat × MMU :=
  if p.mode = Mode.M ∧ p.mprv = false then (some va, m)
  else
    match p.vm with
    | .mbare => (some va, m)
    | .sv32 => translate_paged .sv32 is_fetch m p va
    | .sv39 => translate_paged .sv39 is_fetch m p va
    | .sv48 => translate_paged .sv48 is_fetch m p va

/-- The `riscv_cause_*` codes the MMU raises via `longjmp`. -/
inductive Cause
  | misaligned_fetch
  | fault_fetch
  | misaligned_load
  | fault_load
  | misaligned_store
  | fault_store
deriving DecidableEq

/-- Result of an MMU primitive: `cause = some c` models
`longjmp(proc.env, c)`; `val` is the fetched instruction, the loaded
value, or — on any load fault — the caller's `val` argument unchanged;
`proc` and `mmu` are the states after the call. -/
structure AccessRes where
  cause : Option Cause
  val : Nat
  proc : Proc
  mmu : MMU

/-- `mmu::inst_fetch`: misalignment check against `u16`, then
translation — the source instantiates `translate_addr<P,false>` — then
the fetch through the host address (its bytes are the guest bytes at
the translated pa, see `Mem`). -/
def inst_fetch (m : MMU) (p : Proc) (pc : Nat) : AccessRes :=
  if misaligned 2 pc then ⟨some .misaligned_fetch, 0, { p with badaddr := pc }, m⟩
  else
    match translate_addr false m p pc with
    | (none, m2) => ⟨some .fault_fetch, 0, { p with badaddr := pc }, m2⟩
    | (some pa, m2) =>
      if m2.mem.mapped pa then ⟨none, m2.mem.word pa, p, m2⟩
      else ⟨some .fault_fetch, 0, { p with badaddr := pc }, m2⟩

/-- `mmu::load<T>`: misalignment check against `sizeof(T) = sz`, then
translation, then the dereference `val = *(T*)uva`; `v` is the caller's
`val` before the call. -/
def load (sz : Nat) (m : MMU) (p : Proc) (va v : Nat) : AccessRes :=
  if misaligned sz va then ⟨some .misaligned_load, v, { p with badaddr := va }, m⟩
  else
    match translate_addr false m p va with
    | (none, m2) => ⟨some .fault_load, v, { p with badaddr := va }, m2⟩
    | (some pa, m2) =>
      if m2.mem.mapped pa then ⟨none, m2.mem.word pa, p, m2⟩
      else ⟨some .fault_load, v, { p with badaddr := va }, m2⟩

/-- `mmu::store<T>`: misalignment check, translation, then the write
`*(T*)uva = val`, modelled as an update of the guest contents at pa. -/
def store (sz : Nat) (m : MMU) (p : Proc) (va v : Nat) : AccessRes :=
  if misaligned sz va then ⟨some .misaligned_store, v, { p with badaddr := va }, m⟩
  else
    match translate_addr false m p va with
    | (none, m2) => ⟨some .fault_store, v, { p with badaddr := va }, m2⟩
    | (some pa, m2) =>
      if m2.mem.mapped pa then
        ⟨none, v, p,
          { m2 with mem := ⟨m2.mem.mapped, fun a => if a = pa then v else m2.mem.word a⟩ }⟩
      else ⟨some .fault_store, v, { p with badaddr := va }, m2⟩

/- ELF program-header selection in `rv_emulator::start_proxy`
(src/app/rv-sim.cc): the loop maps `phdr` when
`phdr.p_flags & (PT_LOAD | PT_DYNAMIC)` is non-zero. -/

def PT_LOAD : Nat := 1
def PT_DYNAMIC : Nat := 2
def PT_NOTE : Nat := 4
def PF_X : Nat := 1
def PF_W : Nat := 2
def PF_R : Nat := 4

/-- The program-header fields the loader selection reads. -/
structure Phdr where
  p_type : Nat
  p_flags : Nat
  p_vaddr : Nat
deriving DecidableEq

/-- The condition of `if (phdr.p_flags & (PT_LOAD | PT_DYNAMIC))` in
`rv_emulator::start_proxy`, verbatim: it tests `p_flags`, not `p_type`. -/
def phdr_is_mapped (phdr : Phdr) : Bool :=
  (phdr.p_flags &&& (PT_LOAD ||| PT_DYNAMIC)) != 0

/-- The program headers `start_proxy` passes to `map_load_segment_user`. -/
def load_segments (phdrs : List Phdr) : List Phdr :=
  phdrs.filter phdr_is_mapped

/- Concrete machine configurations used to evaluate the code. -/

/-- A memory with every physical address mapped, whose contents at `pa`
are `pa` itself. -/
def memAll : Mem := ⟨fun _ => true, fun a => a⟩

/-- A machine-mode processor with `mprv` clear. -/
def procM : Proc := ⟨Mode.M, false, VMMode.mbare, 0, 0, 0⟩

/-- A read-only PMA entry covering physical `[0x1000, 0x2000)`. -/
def pmaRO : PMAEntry := ⟨0x1000, 0x1000, pma_prot_read⟩

/-- An MMU whose PMA table marks `[0x1000, 0x2000)` read-only. -/
def mmu3 : MMU := ⟨TLB.empty, TLB.empty, [pmaRO], memAll⟩

/-- A word-sized store to the read-only-PMA range. -/
def store3 : AccessRes := store 4 mmu3 procM 0x1000 0xDEADBEEF

/-- The S3/S4 sv39 scenario memory: the root page table is at `sptbr`
ppn `0x1000`; because the walker adds the unshifted ppn, its two PTE
reads land at `0x1008` (level-2 interior entry pointing at table
`0x2000`) and `0x2000` (level-1 leaf, V|R|X, ppn `0x100000`, a 2 MiB
megapage to pa `0x1_0000_0000`); all other contents are the address
itself, so fetched bytes identify the pa they came from. -/
def pte_i1 : Nat := (0x2000 <<< 10) ||| 1

def pte_l1 : Nat := (0x100000 <<< 10) ||| 0xB

def mem4 : Mem :=
  ⟨fun _ => true,
   fun a => if a = 0x1008 then pte_i1 else if a = 0x2000 then pte_l1 else a⟩

/-- A supervisor-mode sv39 processor with `sptbr = 0x1000`. -/
def proc4 : Proc := ⟨Mode.S, false, VMMode.sv39, 0, 0x1000, 0⟩

def mmu4 : MMU := ⟨TLB.empty, TLB.empty, [], mem4⟩

/-- First fetch of `va = 0x4000_1000` in the megapage scenario. -/
def fetch4_1 : AccessRes := inst_fetch mmu4 proc4 0x40001000

/-- The repeated fetch of the same va, on the state the first left. -/
def fetch4_2 : AccessRes := inst_fetch fetch4_1.mmu fetch4_1.proc 0x40001000

/-- The C1 scenario memory: the root page table lives at physical
`0x8000_0000` (so the root ppn is `0x80000`) and its entry for the
level-2 vpn of `va = 0x4000_1000` — at `(0x80000 << 12) + 1 * 8` — is a
valid giant leaf (V|R|W|X); nothing below `0x8000_0000` is mapped. -/
def mem1 : Mem :=
  ⟨fun a => decide (0x80000000 ≤ a ∧ a < 0x80001000),
   fun a => if a = 0x80000008 then (0x100000 <<< 10) ||| 0xF else 0⟩

/-- A read-only `PT_LOAD` program header. -/
def phdr_ro_load : Phdr := ⟨PT_LOAD, PF_R, 0x10000⟩

/-- A read-write `PT_NOTE` program header — not loadable. -/
def phdr_rw_note : Phdr := ⟨PT_NOTE, PF_R ||| PF_W, 0⟩

/- Helper lemmas. -/

/-- Replacing the PMA table is invisible to `translate_addr`: the table
passes through untouched and influences nothing. -/
theorem translate_addr_pma (f : Bool) (m : MMU) (p : Proc) (va : Nat) (t : List PMAEntry) :
    translate_addr f { m with pma := t } p va =
      ((translate_addr f m p va).1, { (translate_addr f m p va).2 with pma := t }) := by
  unfold translate_addr translate_paged
  by_cases h : p.mode = Mode.M ∧ p.mprv = false
  · simp [h]
  · simp only [h, if_false]
    cases p.vm <;> cases f <;> rfl

/-- Replacing the PMA table is invisible to `store`. -/
theorem store_pma (sz : Nat) (m : MMU) (p : Proc) (va v : Nat) (t : List PMAEntry) :
    store sz { m with pma := t } p va v =
      { store sz m p va v with mmu := { (store sz m p va v).mmu with pma := t } } := by
  unfold store
  by_cases h : misaligned sz va = true
  · simp [h]
  · simp only [h, if_false, translate_addr_pma]
    rcases htr : translate_addr false m p va with ⟨mpa, m2⟩
    cases mpa with
    | none => simp [htr]
    | some pa =>
      simp only [htr]
      by_cases hm : m2.mem.mapped pa = true <;> simp [hm]

/-- Replacing the PMA table is invisible to `load`. -/
theorem load_pma (sz : Nat) (m : MMU) (p : Proc) (va v : Nat) (t : List PMAEntry) :
    load sz { m with pma := t } p va v =
      { load sz m p va v with mmu := { (load sz m p va v).mmu with pma := t } } := by
  unfold load
  by_cases h : misaligned sz va = true
  · simp [h]
  · simp only [h, if_false, translate_addr_pma]
    rcases htr : translate_addr false m p va with ⟨mpa, m2⟩
    cases mpa with
    | none => simp [htr]
    | some pa =>
      simp only [htr]
      by_cases hm : m2.mem.mapped pa = true <;> simp [hm]

/-- Replacing the PMA table is invisible to `inst_fetch`. -/
theorem inst_fetch_pma (m : MMU) (p : Proc) (pc : Nat) (t : List PMAEntry) :
    inst_fetch { m with pma := t } p pc =
      { inst_fetch m p pc with mmu := { (inst_fetch m p pc).mmu with pma := t } } := by
  unfold inst_fetch
  by_cases h : misaligned 2 pc = true
  · simp [h]
  · simp only [h, if_false, translate_addr_pma]
    rcases htr : translate_addr false m p pc with ⟨mpa, m2⟩
    cases mpa with
    | none => simp [htr]
    | some pa =>
      simp only [htr]
      by_cases hm : m2.mem.mapped pa = true <;> simp [hm]

/-- Case shape of `load`: either the va is misaligned and the call
raises `misaligned_load` before touching any translation state, or it
is aligned and the only possible cause is `fault_load`, with `badaddr`
and the caller's value preserved on the fault. -/
theorem load_shape (sz : Nat) (m : MMU) (p : Proc) (va v : Nat) :
    (misaligned sz va = true ∧
      load sz m p va v = ⟨some Cause.misaligned_load, v, { p with badaddr := va }, m⟩) ∨
    (misaligned sz va = false ∧
      ((load sz m p va v).cause = none ∨ (load sz m p va v).cause = some Cause.fault_load) ∧
      ((load sz m p va v).cause ≠ none →
        (load sz m p va v).proc.badaddr = va ∧ (load sz m p va v).val = v)) := by
  by_cases h : misaligned sz va = true
  · exact Or.inl ⟨h, by unfold load; rw [if_pos h]⟩
  · refine Or.inr ⟨by simpa using h, ?_⟩
    unfold load
    rw [if_neg h]
    rcases htr : translate_addr false m p va with ⟨mpa, m2⟩
    cases mpa with
    | none => simp
    | some pa => by_cases hmap : m2.mem.mapped pa = true <;> simp [hmap]

/-- Case shape of `store`, as for `load`. -/
theorem store_shape (sz : Nat) (m : MMU) (p : Proc) (va v : Nat) :
    (misaligned sz va = true ∧
      store sz m p va v = ⟨some Cause.misaligned_store, v, { p with badaddr := va }, m⟩) ∨
    (misaligned sz va = false ∧
      ((store sz m p va v).cause = none ∨ (store sz m p va v).cause = some Cause.fault_store) ∧
      ((store sz m p va v).cause ≠ none → (store sz m p va v).proc.badaddr = va)) := by
  by_cases h : misaligned sz va = true
  · exact Or.inl ⟨h, by unfold store; rw [if_pos h]⟩
  · refine Or.inr ⟨by simpa using h, ?_⟩
    unfold store
    rw [if_neg h]
    rcases htr : translate_addr false m p va with ⟨mpa, m2⟩
    cases mpa with
    | none => simp
    | some pa => by_cases hmap : m2.mem.mapped pa = true <;> simp [hmap]

/-- Case shape of `inst_fetch`, as for `load`. -/
theorem inst_fetch_shape (m : MMU) (p : Proc) (pc : Nat) :
    (misaligned 2 pc = true ∧
      inst_fetch m p pc = ⟨some Cause.misaligned_fetch, 0, { p with badaddr := pc }, m⟩) ∨
    (misaligned 2 pc = false ∧
      ((inst_fetch m p pc).cause = none ∨ (inst_fetch m p pc).cause = some Cause.fault_fetch) ∧
      ((inst_fetch m p pc).cause ≠ none → (inst_fetch m p pc).proc.badaddr = pc)) := by
  by_cases h : misaligned 2 pc = true
  · exact Or.inl ⟨h, by unfold inst_fetch; rw [if_pos h]⟩
  · refine Or.inr ⟨by simpa using h, ?_⟩
    unfold inst_fetch
    rw [if_neg h]
    rcases htr : translate_addr false m p pc with ⟨mpa, m2⟩
    cases mpa with
    | none => simp
    | some pa => by_cases hmap : m2.mem.mapped pa = true <;> simp [hmap]

/-- The walker's combined access-fault expression holds exactly when
`V = 0` or (`R = 0` and `W = 1`). -/
theorem pteFaultTest_iff (v : Nat) :
    pteFaultTest (pte_flags v) = true ↔
      (Nat.testBit v 0 = false ∨ (Nat.testBit v 1 = false ∧ Nat.testBit v 2 = true)) := by
  have key : ∀ x : Nat, ((x &&& 1) != 0) = Nat.testBit x 0 := by
    intro x
    rw [Nat.and_one_is_mod]
    rcases Nat.mod_two_eq_zero_or_one x with h | h <;> simp [h]
  unfold pteFaultTest
  rw [key]
  simp only [pte_flags, mask64, pte_shift_V, pte_shift_R, pte_shift_W,
    Nat.testBit_or, Nat.testBit_and, Nat.testBit_xor, Nat.testBit_shiftRight,
    Nat.testBit_two_pow_sub_one]
  cases hv0 : Nat.testBit v 0 <;> cases hv1 : Nat.testBit v 1 <;>
    cases hv2 : Nat.testBit v 2 <;> simp

/-- C1: the claim states that each level of the walk reads its PTE at
`pte_pa = (ppn << 12) + vpn * pte_size`.  The code computes
`ppn + vpn * pte_size`, omitting the shift (even though its own leaf
composition shifts the very same ppn): with the sv39 root table at
pa `0x8000_0000` (root ppn `0x80000`) holding a mapped, valid leaf PTE
for `va = 0x4000_1000` at the claim's address `0x8000_0008`, the walker
instead reads `0x80008`, which is unmapped, and the walk fails. -/
theorem C1_walk_reads_unshifted_ppn :
    walk_page_table .sv39 mem1 0x80000 0x40001000 = none ∧
    pte_addr .sv39 0x40001000 2 0x80000 = 0x80000 + 1 * 8 ∧
    mem1.mapped (0x80000 + 1 * 8) = false ∧
    mem1.mapped ((0x80000 <<< 12) + 1 * 8) = true ∧
    pteFaultTest (pte_flags (mem1.word ((0x80000 <<< 12) + 1 * 8))) = false ∧
    pte_flags (mem1.word ((0x80000 <<< 12) + 1 * 8)) &&& (pte_flag_R ||| pte_flag_X) ≠ 0 := by
  decide

/-- C2: the claim states that paged instruction fetches use the
instruction TLB.  `mmu::inst_fetch` instantiates `translate_addr<P,false>`,
so the fetch walks and inserts through the data TLB: after a successful
paged fetch the translation sits in `l1_dtlb` and `l1_itlb` is still
empty. -/
theorem C2_fetch_inserts_into_data_tlb :
    fetch4_1.cause = none ∧
    fetch4_1.mmu.l1_itlb.lookup 0 0 0x40001000 = none ∧
    fetch4_1.mmu.l1_dtlb.lookup 0 0 0x40001000 =
      some ⟨0, 0, 0x40001, 0x100000, 0xB⟩ := by
  decide

/-- C3 (counterexample): the claim states that a store to a physical
range whose PMA entry is read-only raises `fault_store`.  With the PMA
table marking `[0x1000, 0x2000)` read-only, the word store to `0x1000`
completes without any fault. -/
theorem C3_counterexample_ro_pma_store_succeeds :
    pma_lookup mmu3.pma 0x1000 = some pmaRO ∧ pmaRO.read_only = true ∧
    store3.cause = none := by
  decide

/-- C3 (amended): the MMU holds a PMA table but never consults it — the
PMA checks are a TODO comment in the source — so the outcome of every
load, store and fetch is independent of the PMA table, and in particular
the store to the read-only-PMA range above succeeds. -/
theorem C3_amended_pma_never_consulted :
    (∀ (sz : Nat) (m : MMU) (p : Proc) (va v : Nat) (t : List PMAEntry),
      store sz { m with pma := t } p va v =
        { store sz m p va v with mmu := { (store sz m p va v).mmu with pma := t } }) ∧
    (∀ (sz : Nat) (m : MMU) (p : Proc) (va v : Nat) (t : List PMAEntry),
      load sz { m with pma := t } p va v =
        { load sz m p va v with mmu := { (load sz m p va v).mmu with pma := t } }) ∧
    (∀ (m : MMU) (p : Proc) (pc : Nat) (t : List PMAEntry),
      inst_fetch { m with pma := t } p pc =
        { inst_fetch m p pc with mmu := { (inst_fetch m p pc).mmu with pma := t } }) ∧
    store3.cause = none :=
  ⟨store_pma, load_pma, inst_fetch_pma, by decide⟩

/-- C4: the claim states that in the sv39 megapage scenario every fetch
of `va = 0x4000_1000` — the first and all repeated ones — yields the
bytes at `pa = 0x1_0000_1000`.  The first fetch does (the leaf
composition passes the low `shift` bits of va through), but it caches
the leaf's unshifted megapage ppn in the TLB, so the repeated fetch of
the same va hits the TLB and yields the bytes at `pa = 0x1_0000_0000`,
the megapage base. -/
theorem C4_repeat_fetch_breaks_megapage :
    fetch4_1.cause = none ∧ fetch4_1.val = mem4.word 0x100001000 ∧
    fetch4_2.cause = none ∧ fetch4_2.val = mem4.word 0x100000000 ∧
    mem4.word 0x100000000 ≠ mem4.word 0x100001000 := by
  decide

/-- C5: the claim states that exactly the program headers of type
`PT_LOAD` or `PT_DYNAMIC` are mapped.  The loader's condition tests
`p_flags`, not `p_type`: a read-only `PT_LOAD` header (flags `PF_R`) is
skipped, while a `PT_NOTE` header with `PF_R|PF_W` flags is mapped. -/
theorem C5_loader_tests_flags_not_type :
    load_segments [phdr_ro_load, phdr_rw_note] = [phdr_rw_note] ∧
    phdr_ro_load.p_type = PT_LOAD ∧
    phdr_rw_note.p_type ≠ PT_LOAD ∧ phdr_rw_note.p_type ≠ PT_DYNAMIC := by
  decide

/-- C6: a `misaligned_*` cause is raised exactly when the address is not
`sizeof(T)`-aligned (2-byte alignment for fetches), and it is raised
before any translation is attempted — on a misaligned access the call
returns with the MMU state untouched, whatever the translation state
holds. -/
theorem C6_misaligned_exactly (sz : Nat) (m : MMU) (p : Proc) (va v : Nat) :
    ((load sz m p va v).cause = some Cause.misaligned_load ↔ va &&& (sz - 1) ≠ 0) ∧
    ((store sz m p va v).cause = some Cause.misaligned_store ↔ va &&& (sz - 1) ≠ 0) ∧
    ((inst_fetch m p va).cause = some Cause.misaligned_fetch ↔ va &&& (2 - 1) ≠ 0) ∧
    (va &&& (sz - 1) ≠ 0 →
      load sz m p va v = ⟨some Cause.misaligned_load, v, { p with badaddr := va }, m⟩ ∧
      store sz m p va v = ⟨some Cause.misaligned_store, v, { p with badaddr := va }, m⟩) ∧
    (va &&& (2 - 1) ≠ 0 →
      inst_fetch m p va = ⟨some Cause.misaligned_fetch, 0, { p with badaddr := va }, m⟩) := by
  have hmiff : ∀ s : Nat, misaligned s va = true ↔ va &&& (s - 1) ≠ 0 := by
    intro s; simp [misaligned]
  refine ⟨?_, ?_, ?_, ?_, ?_⟩
  · rcases load_shape sz m p va v with ⟨h1, h2⟩ | ⟨h1, h2, _⟩
    · rw [h2]; simpa using (hmiff sz).mp h1
    · constructor
      · intro hc; rcases h2 with h2 | h2 <;> rw [hc] at h2 <;> simp at h2
      · intro hne; exact absurd ((hmiff sz).mpr hne) (by simp [h1])
  · rcases store_shape sz m p va v with ⟨h1, h2⟩ | ⟨h1, h2, _⟩
    · rw [h2]; simpa using (hmiff sz).mp h1
    · constructor
      · intro hc; rcases h2 with h2 | h2 <;> rw [hc] at h2 <;> simp at h2
      · intro hne; exact absurd ((hmiff sz).mpr hne) (by simp [h1])
  · rcases inst_fetch_shape m p va with ⟨h1, h2⟩ | ⟨h1, h2, _⟩
    · rw [h2]; simpa using (hmiff 2).mp h1
    · constructor
      · intro hc; rcases h2 with h2 | h2 <;> rw [hc] at h2 <;> simp at h2
      · intro hne; exact absurd ((hmiff 2).mpr hne) (by simp [h1])
  · intro hne
    have hm := (hmiff sz).mpr hne
    constructor
    · rcases load_shape sz m p va v with ⟨_, h2⟩ | ⟨h1, _, _⟩
      · exact h2
      · rw [h1] at hm; cases hm
    · rcases store_shape sz m p va v with ⟨_, h2⟩ | ⟨h1, _, _⟩
      · exact h2
      · rw [h1] at hm; cases hm
  · intro hne
    have hm := (hmiff 2).mpr hne
    rcases inst_fetch_shape m p va with ⟨_, h2⟩ | ⟨h1, _, _⟩
    · exact h2
    · rw [h1] at hm; cases hm

/-- C6 witness: a word load at `va = 0x1002` is misaligned and returns
immediately with the `misaligned_load` cause and the MMU untouched. -/
theorem C6_witness :
    load 4 mmu3 procM 0x1002 0 =
      ⟨some Cause.misaligned_load, 0, { procM with badaddr := 0x1002 }, mmu3⟩ :=
  ((C6_misaligned_exactly 4 mmu3 procM 0x1002 0).2.2.2.1 (by decide)).1

/-- C7: every fault an MMU primitive raises records the faulting guest
virtual address in `proc.badaddr`, and the cause code is the one of
that primitive. -/
theorem C7_badaddr_on_fault (sz : Nat) (m : MMU) (p : Proc) (va v : Nat) (c : Cause) :
    ((load sz m p va v).cause = some c →
      (load sz m p va v).proc.badaddr = va ∧
        (c = Cause.misaligned_load ∨ c = Cause.fault_load)) ∧
    ((store sz m p va v).cause = some c →
      (store sz m p va v).proc.badaddr = va ∧
        (c = Cause.misaligned_store ∨ c = Cause.fault_store)) ∧
    ((inst_fetch m p va).cause = some c →
      (inst_fetch m p va).proc.badaddr = va ∧
        (c = Cause.misaligned_fetch ∨ c = Cause.fault_fetch)) := by
  refine ⟨?_, ?_, ?_⟩
  · intro hc
    rcases load_shape sz m p va v with ⟨_, h2⟩ | ⟨_, h2, h3⟩
    · rw [h2] at hc ⊢
      cases hc
      exact ⟨rfl, Or.inl rfl⟩
    · refine ⟨(h3 (by rw [hc]; simp)).1, ?_⟩
      rcases h2 with h2 | h2 <;> rw [hc] at h2
      · cases h2
      · cases h2; exact Or.inr rfl
  · intro hc
    rcases store_shape sz m p va v with ⟨_, h2⟩ | ⟨_, h2, h3⟩
    · rw [h2] at hc ⊢
      cases hc
      exact ⟨rfl, Or.inl rfl⟩
    · refine ⟨h3 (by rw [hc]; simp), ?_⟩
      rcases h2 with h2 | h2 <;> rw [hc] at h2
      · cases h2
      · cases h2; exact Or.inr rfl
  · intro hc
    rcases inst_fetch_shape m p va with ⟨_, h2⟩ | ⟨_, h2, h3⟩
    · rw [h2] at hc ⊢
      cases hc
      exact ⟨rfl, Or.inl rfl⟩
    · refine ⟨h3 (by rw [hc]; simp), ?_⟩
      rcases h2 with h2 | h2 <;> rw [hc] at h2
      · cases h2
      · cases h2; exact Or.inr rfl

/-- C7 witness: the misaligned word load at `va = 0x1002` records
`badaddr = 0x1002` with a load cause code. -/
theorem C7_witness :
    (load 4 mmu3 procM 0x1002 0).proc.badaddr = 0x1002 ∧
      (Cause.misaligned_load = Cause.misaligned_load ∨
        Cause.misaligned_load = Cause.fault_load) :=
  (C7_badaddr_on_fault 4 mmu3 procM 0x1002 0 Cause.misaligned_load).1 (by decide)

/-- C8: in M mode with `mprv` clear, and under `vm = mbare`, translation
is the identity: `translate_addr` returns `pa = va` and the MMU — both
TLBs and the memory — unchanged, for every MMU state, so neither a TLB
nor a page table is consulted. -/
theorem C8_identity_translation (f : Bool) (m : MMU) (p : Proc) (va : Nat)
    (h : (p.mode = Mode.M ∧ p.mprv = false) ∨ p.vm = VMMode.mbare) :
    translate_addr f m p va = (some va, m) := by
  unfold translate_addr
  rcases h with h | h
  · rw [if_pos h]
  · by_cases h2 : p.mode = Mode.M ∧ p.mprv = false
    · rw [if_pos h2]
    · rw [if_neg h2, h]

/-- C8 witness: a machine-mode access with `mprv` clear translates
identically. -/
theorem C8_witness : translate_addr true mmu3 procM 0x123 = (some 0x123, mmu3) :=
  C8_identity_translation true mmu3 procM 0x123 (Or.inl ⟨rfl, rfl⟩)

/-- C9: a fetched (mapped) PTE makes its walk step fail exactly when
`V = 0` or (`R = 0` and `W = 1`); the test fires before the leaf test —
the equivalence holds whatever the R/X leaf bits are — and a failing
step makes the whole walk fail. -/
theorem C9_fault_test :
    (∀ v : Nat, pteFaultTest (pte_flags v) = true ↔
      (Nat.testBit v 0 = false ∨ (Nat.testBit v 1 = false ∧ Nat.testBit v 2 = true))) ∧
    (∀ (vm : VMMode) (mem : Mem) (va level ppn : Nat),
      mem.mapped (pte_addr vm va level ppn) = true →
      (walk_step vm mem va level ppn = StepRes.fail ↔
        pteFaultTest (pte_flags (mem.word (pte_addr vm va level ppn))) = true)) ∧
    (∀ (vm : VMMode) (mem : Mem) (va level ppn : Nat),
      walk_step vm mem va level ppn = StepRes.fail →
      walk_levels vm mem va level ppn = none) := by
  refine ⟨pteFaultTest_iff, ?_, ?_⟩
  · intro vm mem va level ppn h
    unfold walk_step
    simp only [h, Bool.true_eq_false, if_false]
    by_cases hf : pteFaultTest (pte_flags (mem.word (pte_addr vm va level ppn))) = true
    · simp [hf]
    · have hf2 : pteFaultTest (pte_flags (mem.word (pte_addr vm va level ppn))) = false := by
        simpa using hf
      simp only [hf2, Bool.false_eq_true, if_false]
      constructor
      · intro hstep
        split at hstep <;> simp at hstep
      · intro htrue
        simp at htrue
  · intro vm mem va level ppn h
    cases level with
    | zero => simp [walk_levels, h]
    | succ l => simp [walk_levels, h]

/-- C9 witness: the all-mapped memory holds the raw word `0x5000` at the
walker's PTE address for `va = 0`, level 0, `ppn = 0x5000`; its flag
field has `V = 0`, so the step and the walk fail there. -/
theorem C9_witness :
    memAll.mapped (pte_addr .sv39 0 0 0x5000) = true ∧
      walk_step .sv39 memAll 0 0 0x5000 = StepRes.fail ∧
      walk_levels .sv39 memAll 0 0 0x5000 = none := by
  refine ⟨by decide, ?_, ?_⟩
  · exact (C9_fault_test.2.1 .sv39 memAll 0 0 0x5000 (by decide)).mpr (by decide)
  · exact C9_fault_test.2.2 .sv39 memAll 0 0 0x5000
      ((C9_fault_test.2.1 .sv39 memAll 0 0 0x5000 (by decide)).mpr (by decide))

/-- C10: a typed load that faults — misaligned or translation fault —
leaves the caller-supplied destination unchanged; it is written only on
the success path. -/
theorem C10_faulting_load_preserves_val (sz : Nat) (m : MMU) (p : Proc) (va v : Nat)
    (h : (load sz m p va v).cause ≠ none) : (load sz m p va v).val = v := by
  rcases load_shape sz m p va v with ⟨_, h2⟩ | ⟨_, _, h3⟩
  · rw [h2]
  · exact (h3 h).2

/-- C10 witness: the faulting misaligned load at `va = 0x1002` returns
the caller's value 7 unchanged. -/
theorem C10_witness : (load 4 mmu3 procM 0x1002 7).val = 7 :=
  C10_faulting_load_preserves_val 4 mmu3 procM 0x1002 7 (by decide)

end RV8
